import Mathlib

/-!
A verification development for the `dnsresolvr` repository (Go), a small DNS
message codec and resolver.  The Go sources are shallowly embedded here:

* bytes are modelled as `Nat` (values 0..255 in well-formed buffers), byte
  slices as `List Nat`, `uint16`/`uint32` values as `Nat` with explicit
  `% 2^16` / `% 2^32` where Go's fixed-width arithmetic wraps;
* `internal/pkg/bytereader/bytereader.go`'s `ByteReader` (a wrapper around
  Go's `bytes.Reader`) is a record of the backing slice (`Option`, since a
  `nil` slice is observable) and the raw reader index; each method returns
  its result together with the updated reader;
* Go's `(value, error)` returns are modelled by `BrResult`: `ok`, `err`, or
  `panicked` for a Go runtime panic (negative `make` length, index out of
  range);
* `dnsresolvr.go`'s decode path (`parseResponse`, `readDomainFromResponse`,
  `parseAnswersFromResponse`, `readIpAddressFromResponse`) is embedded with
  the same error-discarding behaviour as the Go code (a failed read yields
  the Go zero value and the loop goes on);
* Go strings built by `strings.Builder` from raw bytes are modelled as the
  byte list itself; a Lean `String` is converted to its UTF-8 bytes by
  `stringBytes` where the Go code does `[]byte(s)`;
* randomness (`utils.GetRandomUint16`) is modelled by passing the random
  draw of `crypto/rand.Int(reader, big.NewInt(65535))` — a uniform value in
  `[0, 65535)` — as an explicit parameter, embedded as `draw % 65535`.
-/

/-! ## The byte reader (src/internal/pkg/bytereader/bytereader.go) -/

/-- The errors the embedded reader can return.  `uninitializedReader` is Go's
`errors.New ("reader not initialized")`, `insufficientData` is
`errors.New ("requested more number of bytes to read than the available
bytes")`, `negativePosition` is the error `bytes.Reader.Seek` returns for a
negative target position. -/
inductive BrError where
  | uninitializedReader
  | insufficientData
  | negativePosition
  deriving DecidableEq, Repr

/-- A Go `(value, error)` result, with a third alternative for a runtime
panic (which in Go aborts instead of returning). -/
inductive BrResult (α : Type) where
  | ok (val : α)
  | err (e : BrError)
  | panicked
  deriving DecidableEq, Repr

/-- `ByteReader` wraps `bytes.NewReader(sourceSlice)`: `sourceSlice` keeps
the Go slice (`none` models a `nil` slice), `pos` is the reader index `i` of
the underlying `bytes.Reader` (a seek may legally put it past the end). -/
structure ByteReader where
  sourceSlice : Option (List Nat)
  pos : Nat
  deriving DecidableEq, Repr

/-- `NewByteReader` from the Go source: a fresh reader at index 0. -/
def NewByteReader (source : Option (List Nat)) : ByteReader :=
  { sourceSlice := source, pos := 0 }

/-- The bytes backing the reader (a `nil` slice reads as empty). -/
def ByteReader.dataBytes (b : ByteReader) : List Nat :=
  b.sourceSlice.getD []

/-- `bytes.Reader.Len()`: the number of unread bytes,
`0` when the index is at or past the end (truncated subtraction). -/
def ByteReader.readerLen (b : ByteReader) : Nat :=
  b.dataBytes.length - b.pos

/-- `ByteReader.ReadBytes` from the Go source:

* a `nil` source slice returns the "reader not initialized" error;
* `numberOfBytesToRead > reader.Len()` returns the "requested more number of
  bytes to read than the available bytes" error, reader untouched;
* otherwise Go runs `make([]byte, numberOfBytesToRead)`, which panics for a
  negative count (the count is an `int`), and `reader.Read` fills the slice
  with the next `n` bytes and advances the index. -/
def ByteReader.ReadBytes (b : ByteReader) (numberOfBytesToRead : Int) :
    BrResult (List Nat) × ByteReader :=
  if b.sourceSlice = none then (.err .uninitializedReader, b)
  else if (b.readerLen : Int) < numberOfBytesToRead then (.err .insufficientData, b)
  else if numberOfBytesToRead < 0 then (.panicked, b)
  else (.ok ((b.dataBytes.drop b.pos).take numberOfBytesToRead.toNat),
        { b with pos := b.pos + numberOfBytesToRead.toNat })

/-- `ByteReader.ReadSingleByte`: `ReadBytes 1`, returning `bytesRead[0]`. -/
def ByteReader.ReadSingleByte (b : ByteReader) : BrResult Nat × ByteReader :=
  match b.ReadBytes 1 with
  | (.ok bytesRead, b1) => (.ok (bytesRead.headD 0), b1)
  | (.err e, b1) => (.err e, b1)
  | (.panicked, b1) => (.panicked, b1)

/-- `binary.BigEndian.Uint16` on a 2-byte slice. -/
def bigEndianUint16 (bytesRead : List Nat) : Nat :=
  bytesRead.getD 0 0 * 256 + bytesRead.getD 1 0

/-- `binary.BigEndian.Uint32` on a 4-byte slice. -/
def bigEndianUint32 (bytesRead : List Nat) : Nat :=
  bytesRead.getD 0 0 * 16777216 + bytesRead.getD 1 0 * 65536 +
    bytesRead.getD 2 0 * 256 + bytesRead.getD 3 0

/-- `ByteReader.ReadUint16`: `ReadBytes 2` then big-endian decode. -/
def ByteReader.ReadUint16 (b : ByteReader) : BrResult Nat × ByteReader :=
  match b.ReadBytes 2 with
  | (.ok bytesRead, b1) => (.ok (bigEndianUint16 bytesRead), b1)
  | (.err e, b1) => (.err e, b1)
  | (.panicked, b1) => (.panicked, b1)

/-- `ByteReader.ReadUint32`: `ReadBytes 4` then big-endian decode. -/
def ByteReader.ReadUint32 (b : ByteReader) : BrResult Nat × ByteReader :=
  match b.ReadBytes 4 with
  | (.ok bytesRead, b1) => (.ok (bigEndianUint32 bytesRead), b1)
  | (.err e, b1) => (.err e, b1)
  | (.panicked, b1) => (.panicked, b1)

/-- The `whence` argument of `io.Seeker` (`io.SeekStart` / `io.SeekCurrent` /
`io.SeekEnd`); the Go code only ever passes `io.SeekStart`. -/
inductive Whence where
  | seekStart
  | seekCurrent
  | seekEnd
  deriving DecidableEq, Repr

/-- The absolute target index `bytes.Reader.Seek` computes from `offset` and
`whence` before its sign check. -/
def seekTarget (b : ByteReader) (offset : Int) (whence : Whence) : Int :=
  match whence with
  | .seekStart => offset
  | .seekCurrent => (b.pos : Int) + offset
  | .seekEnd => (b.dataBytes.length : Int) + offset

/-- `ByteReader.SeekPosition` from the Go source, which simply delegates to
`bytes.Reader.Seek`: the target index is rejected only when negative
("bytes.Reader.Seek: negative position"); a target past the end of the
buffer is accepted and stored. -/
def ByteReader.SeekPosition (b : ByteReader) (offset : Int) (whence : Whence) :
    BrResult Unit × ByteReader :=
  let abs := seekTarget b offset whence
  if abs < 0 then (.err .negativePosition, b)
  else (.ok (), { b with pos := abs.toNat })

/-- `ByteReader.GetCurrentPosition`: `reader.Size() - reader.Len()`. -/
def ByteReader.GetCurrentPosition (b : ByteReader) : Nat :=
  b.dataBytes.length - b.readerLen

/-- `ByteReader.GetAvailableBytes`: `reader.Len()`. -/
def ByteReader.GetAvailableBytes (b : ByteReader) : Nat :=
  b.readerLen

/-- A Go call `v, _ := ...` that discards the error: the Go functions above
return the zero value of the result alongside a non-nil error, so the
embedded call yields the supplied default on `err` (and on the impossible
`panicked`). -/
def resultOr {α : Type} (dflt : α) (p : BrResult α × ByteReader) : α × ByteReader :=
  match p with
  | (.ok v, b) => (v, b)
  | (.err _, b) => (dflt, b)
  | (.panicked, b) => (dflt, b)

/-! ## Utilities (src/internal/pkg/utils/utils.go) -/

/-- `utils.ConvertUint16ToBytesArray`: big-endian bytes of a `uint16`. -/
def ConvertUint16ToBytesArray (number : Nat) : List Nat :=
  [number / 256 % 256, number % 256]

/-- `utils.GetRandomUint16`: `rand.Int(rand.Reader, big.NewInt(65535))`
draws a uniform integer in `[0, 65535)` (Go's `crypto/rand.Int` is uniform
on `[0, max)`), then converts to `uint16`.  The randomness is injected as
`draw`: an arbitrary natural, reduced modulo the exclusive bound 65535, and
the `uint16` conversion is `% 65536`. -/
def GetRandomUint16 (draw : Nat) : Nat :=
  draw % 65535 % 65536

/-! ## DNS header (src/dnsresolvr.go) -/

/-- `DnsHeader` from the Go source; `uint16` fields are `Nat`s meant to be
below 2^16, `OpCode` and `ResponseCode` are `uint16`-backed enums kept as
`Nat`. -/
structure DnsHeader where
  Id : Nat
  IsResponse : Bool
  Opcode : Nat
  IsAuthoritativeAnswer : Bool
  IsTruncatedMessage : Bool
  IsRecursionDesired : Bool
  IsRecursionSupportAvailable : Bool
  ResponseCode : Nat
  QuestionCount : Nat
  AnswerCount : Nat
  NameServerRecordsCount : Nat
  AdditionalRecordsCount : Nat
  deriving DecidableEq, Repr

/-- `DnsHeader.getHeaderMetadata`: the 16-bit flags word, assembled exactly
as the Go code does — note the opcode is added shifted by 14 bits
(`uint16(h.Opcode) << 14`, wrapping in `uint16`), the flags at bits
10/9/8/7, the response code in the low bits; the sum wraps at 2^16. -/
def DnsHeader.getHeaderMetadata (h : DnsHeader) : List Nat :=
  ConvertUint16ToBytesArray
    (((if h.IsResponse then 32768 else 0) +
      h.Opcode * 16384 +
      (if h.IsAuthoritativeAnswer then 1024 else 0) +
      (if h.IsTruncatedMessage then 512 else 0) +
      (if h.IsRecursionDesired then 256 else 0) +
      (if h.IsRecursionSupportAvailable then 128 else 0) +
      h.ResponseCode) % 65536)

/-- `DnsHeader.GetBytes`: id, flags word, four counts, big-endian. -/
def DnsHeader.GetBytes (h : DnsHeader) : List Nat :=
  ConvertUint16ToBytesArray h.Id ++
  h.getHeaderMetadata ++
  ConvertUint16ToBytesArray h.QuestionCount ++
  ConvertUint16ToBytesArray h.AnswerCount ++
  ConvertUint16ToBytesArray h.NameServerRecordsCount ++
  ConvertUint16ToBytesArray h.AdditionalRecordsCount

/-- `populateDnsHeaderWithMetadata`: extracts the flag bits from the 16-bit
flags word into an existing header (the Go function mutates its argument and
always returns a nil error) — the opcode is read from bits 11..14
(`headerMeta >> 11 & 15`). -/
def populateDnsHeaderWithMetadata (headerMeta : Nat) (dnsHeader : DnsHeader) : DnsHeader :=
  { dnsHeader with
    IsResponse := headerMeta &&& 32768 = 32768
    Opcode := headerMeta >>> 11 &&& 15
    IsAuthoritativeAnswer := headerMeta &&& 1024 = 1024
    IsTruncatedMessage := headerMeta &&& 512 = 512
    IsRecursionDesired := headerMeta &&& 256 = 256
    IsRecursionSupportAvailable := headerMeta &&& 128 = 128
    ResponseCode := headerMeta &&& 15 }

/-- The header-decoding prefix of `parseResponse`: six sequential 16-bit
reads over a fresh reader (errors discarded, reads yielding 0 on failure,
exactly as the Go code ignores them), the flags word decoded by
`populateDnsHeaderWithMetadata`. -/
def decodeHeader (response : List Nat) : DnsHeader :=
  let r0 := NewByteReader (some response)
  let (responseId, r1) := resultOr 0 r0.ReadUint16
  let (headerMeta, r2) := resultOr 0 r1.ReadUint16
  let (qd, r3) := resultOr 0 r2.ReadUint16
  let (an, r4) := resultOr 0 r3.ReadUint16
  let (ns, r5) := resultOr 0 r4.ReadUint16
  let (ar, _) := resultOr 0 r5.ReadUint16
  populateDnsHeaderWithMetadata headerMeta
    { Id := responseId, IsResponse := false, Opcode := 0,
      IsAuthoritativeAnswer := false, IsTruncatedMessage := false,
      IsRecursionDesired := false, IsRecursionSupportAvailable := false,
      ResponseCode := 0, QuestionCount := qd, AnswerCount := an,
      NameServerRecordsCount := ns, AdditionalRecordsCount := ar }

/-! ## DNS query construction (src/dnsresolvr.go) -/

/-- `strings.Split(s, ".")` on the character list of a Go string: split at
every dot, keeping empty parts (n dots give n+1 parts). -/
def splitOnDot (cs : List Char) : List (List Char) :=
  match cs with
  | [] => [[]]
  | c :: rest =>
    match splitOnDot rest with
    | [] => [[]]
    | p :: ps => if c = '.' then [] :: p :: ps else (c :: p) :: ps

/-- `[]byte(s)` for a Go string: its UTF-8 bytes. -/
def stringBytes (s : String) : List Nat :=
  (s.data.map (fun c => (String.utf8EncodeChar c).map UInt8.toNat)).flatten

/-- `getDomainNameInQnameFormat`: split the name on dots; for every part
emit `uint8(len(part))` (the byte length, wrapped to a byte) followed by the
part's bytes; terminate with a zero byte. -/
def getDomainNameInQnameFormat (domainName : String) : List Nat :=
  let nameParts := splitOnDot domainName.data
  (nameParts.map fun namePart =>
    (stringBytes (String.mk namePart)).length % 256 :: stringBytes (String.mk namePart)).flatten
    ++ [0]

/-- `OpCode` constant `StandardQuery` (iota = 0). -/
def OpCode.StandardQuery : Nat := 0

/-- `MessageType` constant `A` (iota + 1 = 1). -/
def MessageType.A : Nat := 1

/-- `MessageClass` constant `IN` (iota + 1 = 1). -/
def MessageClass.IN : Nat := 1

/-- `DnsQueryQuestion` from the Go source. -/
structure DnsQueryQuestion where
  Qname : List Nat
  Qtype : Nat
  Qclass : Nat
  deriving DecidableEq, Repr

/-- `DnsQueryQuestion.GetBytes`: name bytes, then type and class big-endian. -/
def DnsQueryQuestion.GetBytes (q : DnsQueryQuestion) : List Nat :=
  q.Qname ++ ConvertUint16ToBytesArray q.Qtype ++ ConvertUint16ToBytesArray q.Qclass

/-- `DnsQuery` from the Go source. -/
structure DnsQuery where
  Header : DnsHeader
  Questions : List DnsQueryQuestion
  deriving DecidableEq, Repr

/-- `DnsQuery.GetBytes`: header bytes then every question's bytes in order. -/
def DnsQuery.GetBytes (q : DnsQuery) : List Nat :=
  q.Header.GetBytes ++ (q.Questions.map DnsQueryQuestion.GetBytes).flatten

/-- `generateDnsQuery`: fresh header with a random id (the random draw is
the explicit `draw` parameter), opcode `StandardQuery`, question count 1,
recursion not desired, and a single A/IN question for the domain name.
All other header fields keep Go's zero values. -/
def generateDnsQuery (draw : Nat) (domainName : String) : DnsQuery :=
  { Header := { Id := GetRandomUint16 draw, IsResponse := false,
                Opcode := OpCode.StandardQuery, IsAuthoritativeAnswer := false,
                IsTruncatedMessage := false, IsRecursionDesired := false,
                IsRecursionSupportAvailable := false, ResponseCode := 0,
                QuestionCount := 1, AnswerCount := 0,
                NameServerRecordsCount := 0, AdditionalRecordsCount := 0 },
    Questions := [{ Qname := getDomainNameInQnameFormat domainName,
                    Qtype := MessageType.A, Qclass := MessageClass.IN }] }

/-! ## Response decoding (src/dnsresolvr.go) -/

theorem ByteReader.readBytes_sourceSlice (b : ByteReader) (n : Int) :
    ((b.ReadBytes n).2).sourceSlice = b.sourceSlice := by
  unfold ByteReader.ReadBytes
  split <;> [rfl; skip]
  split <;> [rfl; skip]
  split <;> rfl

theorem ByteReader.readBytes_pos_ge (b : ByteReader) (n : Int) :
    b.pos ≤ ((b.ReadBytes n).2).pos := by
  unfold ByteReader.ReadBytes
  split <;> [exact le_rfl; skip]
  split <;> [exact le_rfl; skip]
  split <;> [exact le_rfl; exact Nat.le_add_right _ _]

theorem ByteReader.readSingleByte_ok (b : ByteReader) (l : Nat) (b1 : ByteReader)
    (h : b.ReadSingleByte = (.ok l, b1)) :
    b1.pos = b.pos + 1 ∧ b.pos < b.dataBytes.length ∧ b1.sourceSlice = b.sourceSlice := by
  unfold ByteReader.ReadSingleByte at h
  rcases hrb : b.ReadBytes 1 with ⟨res, b'⟩
  rw [hrb] at h
  rcases res with bs | e | _
  · simp only [Prod.mk.injEq, BrResult.ok.injEq] at h
    rcases h with ⟨-, rfl⟩
    unfold ByteReader.ReadBytes at hrb
    split at hrb
    · exact absurd hrb (by simp)
    · split at hrb
      · exact absurd hrb (by simp)
      · split at hrb
        · omega
        · rename_i hlen _
          simp only [Prod.mk.injEq] at hrb
          have h2 : b.pos < b.dataBytes.length := by
            unfold ByteReader.readerLen at hlen
            omega
          rw [← hrb.2]
          exact ⟨rfl, h2, rfl⟩
  · exact absurd h (by simp)
  · exact absurd h (by simp)

/-- The body of `readDomainFromResponse`'s `for` loop: read a length byte
(a failed read yields 0 and so breaks the loop, like the Go code that
discards the error); a zero length terminates; otherwise a dot is appended
when the builder is non-empty and the next `l` bytes are appended (a failed
`ReadBytes` yields a nil part, writes nothing, and the loop goes on).
Terminates because every non-final iteration consumes the length byte. -/
def readDomainLoop (b : ByteReader) (domain : List Nat) : List Nat × ByteReader :=
  match hr : b.ReadSingleByte with
  | (.ok l, b1) =>
    if l = 0 then (domain, b1)
    else
      let domain1 := if domain.isEmpty then domain else domain ++ [46]
      match hb : b1.ReadBytes (l : Int) with
      | (.ok domainPart, b2) => readDomainLoop b2 (domain1 ++ domainPart)
      | (.err _, b2) => readDomainLoop b2 domain1
      | (.panicked, b2) => readDomainLoop b2 domain1
  | (.err _, b1) => (domain, b1)
  | (.panicked, b1) => (domain, b1)
termination_by b.readerLen
decreasing_by
  all_goals
    rcases ByteReader.readSingleByte_ok b l b1 hr with ⟨hpos, hlt, hsrc⟩
    have hge : b1.pos ≤ b2.pos := by
      have := ByteReader.readBytes_pos_ge b1 (l : Int)
      rw [hb] at this
      exact this
    have hsrc2 : b2.sourceSlice = b1.sourceSlice := by
      have := ByteReader.readBytes_sourceSlice b1 (l : Int)
      rw [hb] at this
      exact this
    have hdb : b2.dataBytes = b.dataBytes := by
      unfold ByteReader.dataBytes
      rw [hsrc2, hsrc]
    unfold ByteReader.readerLen
    rw [hdb]
    omega

/-- `readDomainFromResponse`: the loop above starting from an empty
`strings.Builder` (the built Go string is modelled as its bytes). -/
def readDomainFromResponse (b : ByteReader) : List Nat × ByteReader :=
  readDomainLoop b []

/-- `strconv.Itoa` of a byte value, as ASCII bytes. -/
def natDecimalBytes (n : Nat) : List Nat :=
  (Nat.toDigits 10 n).map Char.toNat

/-- The loop body of `readIpAddressFromResponse` when all four indexed bytes
exist: `b0.b1.b2.b3` in decimal, as the built string's bytes. -/
def ipDottedQuad (addressInBytes : List Nat) : List Nat :=
  natDecimalBytes (addressInBytes.getD 0 0) ++ [46] ++
  natDecimalBytes (addressInBytes.getD 1 0) ++ [46] ++
  natDecimalBytes (addressInBytes.getD 2 0) ++ [46] ++
  natDecimalBytes (addressInBytes.getD 3 0)

/-- `readIpAddressFromResponse`: indexes `addressInBytes[0] .. [3]`
unconditionally, so a slice shorter than 4 bytes makes Go panic with an
index-out-of-range — modelled as `none`. -/
def readIpAddressFromResponse (addressInBytes : List Nat) : Option (List Nat) :=
  if 4 ≤ addressInBytes.length then some (ipDottedQuad addressInBytes) else none

/-- `DnsAnswer` from the Go source (both strings kept as byte lists). -/
structure DnsAnswer where
  Domain : List Nat
  Address : List Nat
  RecordType : Nat
  RecordClass : Nat
  TTL : Nat
  deriving DecidableEq, Repr

/-- The offset computation `parseAnswersFromResponse` uses for a compression
pointer: `int(o)&63 + int(o2)` — the low six bits of the first byte PLUS the
second byte (no 8-bit shift). -/
def answerPointerOffset (o o2 : Nat) : Nat :=
  (o &&& 63) + o2

/-- The name-reading phase of `parseAnswersFromResponse` (its first half,
ending where the record's type is read): one byte is read unconditionally;
if its top two bits are set the next byte is read, the reader seeks to
`answerPointerOffset`, the domain is read there, and the reader seeks back
to the position saved after the two pointer bytes; otherwise the domain is
read with that first length byte already consumed. -/
def readAnswerName (b : ByteReader) : List Nat × ByteReader :=
  let (o, b1) := resultOr 0 b.ReadSingleByte
  if o &&& 192 = 192 then
    let (o2, b2) := resultOr 0 b1.ReadSingleByte
    let offset := answerPointerOffset o o2
    let originalReaderPosition := b2.GetCurrentPosition
    let b3 := (b2.SeekPosition (offset : Int) .seekStart).2
    let (domainFromResponse, b4) := readDomainFromResponse b3
    let b5 := (b4.SeekPosition (originalReaderPosition : Int) .seekStart).2
    (domainFromResponse, b5)
  else
    readDomainFromResponse b1

/-- `parseAnswersFromResponse`: the record's name, then type, class, TTL and
RDATA length (all errors discarded, failed reads yielding 0), then
`dataLength` bytes of RDATA (a failed read yielding nil), which are always
interpreted as an IPv4 address — `none` models the Go panic when RDATA holds
fewer than 4 bytes. -/
def parseAnswersFromResponse (b : ByteReader) : Option (DnsAnswer × ByteReader) :=
  let (domainFromResponse, b1) := readAnswerName b
  let (rt, b2) := resultOr 0 b1.ReadUint16
  let (rc, b3) := resultOr 0 b2.ReadUint16
  let (ttl, b4) := resultOr 0 b3.ReadUint32
  let (dataLength, b5) := resultOr 0 b4.ReadUint16
  let (rdata, b6) := resultOr [] (b5.ReadBytes (dataLength : Int))
  match readIpAddressFromResponse rdata with
  | none => none
  | some ipAddress =>
    some ({ Domain := domainFromResponse, Address := ipAddress,
            RecordType := rt, RecordClass := rc, TTL := ttl }, b6)

/-- `DnsResponse` from the Go source (`parseResponse` never assigns the
`Question` pointer, so it stays `none`). -/
structure DnsResponse where
  Header : DnsHeader
  Question : Option DnsQueryQuestion
  Answers : List DnsAnswer
  deriving DecidableEq, Repr

/-- The `for i; uint16(i) < count; i++ { parseAnswersFromResponse(...) }`
loops of `parseResponse`: run the record parser `count` times, threading the
reader and collecting the answers; `none` propagates a Go panic. -/
def parseAnswersLoop (b : ByteReader) (count : Nat) (acc : List DnsAnswer) :
    Option (List DnsAnswer × ByteReader) :=
  match count with
  | 0 => some (acc, b)
  | k + 1 =>
    match parseAnswersFromResponse b with
    | none => none
    | some (ans, b1) => parseAnswersLoop b1 k (acc ++ [ans])

/-- `parseResponse`: six header reads (every error discarded — the first
one is merely printed in Go — and a failed read yielding 0), the question's
domain, its type and class, then `AnswerCount` records collected and
`NameServerRecordsCount` records parsed and discarded.  The Go function
returns nothing; the embedding returns the `DnsResponse` it builds together
with the final reader, and `none` models a Go panic inside a record parse. -/
def parseResponse (response : List Nat) : Option (DnsResponse × ByteReader) :=
  let r0 := NewByteReader (some response)
  let (responseId, r1) := resultOr 0 r0.ReadUint16
  let (headerMeta, r2) := resultOr 0 r1.ReadUint16
  let (qd, r3) := resultOr 0 r2.ReadUint16
  let (an, r4) := resultOr 0 r3.ReadUint16
  let (ns, r5) := resultOr 0 r4.ReadUint16
  let (ar, r6) := resultOr 0 r5.ReadUint16
  let (_, r7) := readDomainFromResponse r6
  let (_, r8) := resultOr 0 r7.ReadUint16
  let (_, r9) := resultOr 0 r8.ReadUint16
  let dnsHeader := populateDnsHeaderWithMetadata headerMeta
    { Id := responseId, IsResponse := false, Opcode := 0,
      IsAuthoritativeAnswer := false, IsTruncatedMessage := false,
      IsRecursionDesired := false, IsRecursionSupportAvailable := false,
      ResponseCode := 0, QuestionCount := qd, AnswerCount := an,
      NameServerRecordsCount := ns, AdditionalRecordsCount := ar }
  match parseAnswersLoop r9 an [] with
  | none => none
  | some (answers, r10) =>
    match parseAnswersLoop r10 ns [] with
    | none => none
    | some (_, r11) =>
      some ({ Header := dnsHeader, Question := none, Answers := answers }, r11)


/-! ## Evaluation lemmas for the reader primitives -/

theorem ByteReader.readBytes_exact (src t rest : List Nat) (pos : Nat) (n : Int)
    (hn : n = (t.length : Int)) (h : src.drop pos = t ++ rest) :
    ByteReader.ReadBytes ⟨some src, pos⟩ n = (.ok t, ⟨some src, pos + t.length⟩) := by
  have hlen : (src.drop pos).length = src.length - pos := List.length_drop _ _
  rw [h, List.length_append] at hlen
  have h1 : t.length ≤ src.length - pos := by omega
  subst hn
  simp only [ByteReader.ReadBytes, ByteReader.readerLen, ByteReader.dataBytes,
    Option.getD_some]
  rw [if_neg (by simp), if_neg (by push_neg; exact_mod_cast h1),
    if_neg (by push_neg; exact Int.natCast_nonneg _)]
  rw [Int.toNat_natCast, h, List.take_left]

theorem ByteReader.readSingleByte_cons (src rest : List Nat) (pos a : Nat)
    (h : src.drop pos = a :: rest) :
    ByteReader.ReadSingleByte ⟨some src, pos⟩ = (.ok a, ⟨some src, pos + 1⟩) := by
  have h2 := ByteReader.readBytes_exact src [a] rest pos 1 (by norm_num) (by simpa using h)
  unfold ByteReader.ReadSingleByte
  rw [h2]
  rfl

theorem ByteReader.readUint16_cons (src rest : List Nat) (pos a b : Nat)
    (h : src.drop pos = a :: b :: rest) :
    ByteReader.ReadUint16 ⟨some src, pos⟩ = (.ok (a * 256 + b), ⟨some src, pos + 2⟩) := by
  have h2 := ByteReader.readBytes_exact src [a, b] rest pos 2 (by norm_num) (by simpa using h)
  unfold ByteReader.ReadUint16
  rw [h2]
  rfl

theorem ByteReader.readUint32_cons (src rest : List Nat) (pos a b c d : Nat)
    (h : src.drop pos = a :: b :: c :: d :: rest) :
    ByteReader.ReadUint32 ⟨some src, pos⟩ =
      (.ok (a * 16777216 + b * 65536 + c * 256 + d), ⟨some src, pos + 4⟩) := by
  have h2 := ByteReader.readBytes_exact src [a, b, c, d] rest pos 4 (by norm_num)
    (by simpa using h)
  unfold ByteReader.ReadUint32
  rw [h2]
  rfl

theorem ByteReader.seekPosition_start (src : List Nat) (pos k : Nat) :
    ByteReader.SeekPosition ⟨some src, pos⟩ (k : Int) .seekStart =
      (.ok (), ⟨some src, k⟩) := by
  unfold ByteReader.SeekPosition seekTarget
  rw [if_neg (by push_neg; exact Int.natCast_nonneg _)]
  rw [Int.toNat_natCast]

theorem ByteReader.getCurrentPosition_of_le (src : List Nat) (pos : Nat)
    (h : pos ≤ src.length) :
    ByteReader.GetCurrentPosition ⟨some src, pos⟩ = pos := by
  unfold ByteReader.GetCurrentPosition ByteReader.readerLen ByteReader.dataBytes
  simp only [Option.getD_some]
  omega

theorem ByteReader.readSingleByte_sourceSlice (b : ByteReader) :
    ((b.ReadSingleByte).2).sourceSlice = b.sourceSlice := by
  unfold ByteReader.ReadSingleByte
  rcases hrb : b.ReadBytes 1 with ⟨res, b'⟩
  have hs := ByteReader.readBytes_sourceSlice b 1
  rw [hrb] at hs
  rcases res with bs | e | _ <;> simpa using hs

theorem readDomainLoop_sourceSlice (b : ByteReader) (domain : List Nat) :
    ((readDomainLoop b domain).2).sourceSlice = b.sourceSlice := by
  induction b, domain using readDomainLoop.induct with
  | case1 b domain b1 hr =>
    have hs := ByteReader.readSingleByte_sourceSlice b
    rw [hr] at hs
    rw [readDomainLoop.eq_def, hr]
    simpa using hs
  | case2 b domain l b1 hr hl domain1 domainPart b2 hb ih =>
    have hs := ByteReader.readSingleByte_sourceSlice b
    rw [hr] at hs
    have hs2 := ByteReader.readBytes_sourceSlice b1 (l : Int)
    rw [hb] at hs2
    rw [readDomainLoop.eq_def, hr]
    simp only [hl, reduceIte]
    split
    · rename_i domainPart2 b3 hb2
      rw [hb] at hb2
      simp only [Prod.mk.injEq, BrResult.ok.injEq] at hb2
      rcases hb2 with ⟨h1, h2⟩
      subst h1
      subst h2
      exact ih.trans (hs2.trans hs)
    · rename_i e b3 hb2
      rw [hb] at hb2
      exact absurd hb2 (by simp)
    · rename_i b3 hb2
      rw [hb] at hb2
      exact absurd hb2 (by simp)
  | case3 b domain l b1 hr hl domain1 e b2 hb ih =>
    have hs := ByteReader.readSingleByte_sourceSlice b
    rw [hr] at hs
    have hs2 := ByteReader.readBytes_sourceSlice b1 (l : Int)
    rw [hb] at hs2
    rw [readDomainLoop.eq_def, hr]
    simp only [hl, reduceIte]
    split
    · rename_i domainPart2 b3 hb2
      rw [hb] at hb2
      exact absurd hb2 (by simp)
    · rename_i e2 b3 hb2
      rw [hb] at hb2
      simp only [Prod.mk.injEq, BrResult.err.injEq] at hb2
      rcases hb2 with ⟨h1, h2⟩
      subst h2
      exact ih.trans (hs2.trans hs)
    · rename_i b3 hb2
      rw [hb] at hb2
      exact absurd hb2 (by simp)
  | case4 b domain l b1 hr hl domain1 b2 hb ih =>
    have hs := ByteReader.readSingleByte_sourceSlice b
    rw [hr] at hs
    have hs2 := ByteReader.readBytes_sourceSlice b1 (l : Int)
    rw [hb] at hs2
    rw [readDomainLoop.eq_def, hr]
    simp only [hl, reduceIte]
    split
    · rename_i domainPart2 b3 hb2
      rw [hb] at hb2
      exact absurd hb2 (by simp)
    · rename_i e2 b3 hb2
      rw [hb] at hb2
      exact absurd hb2 (by simp)
    · rename_i b3 hb2
      rw [hb] at hb2
      simp only [Prod.mk.injEq] at hb2
      rcases hb2 with ⟨-, h2⟩
      subst h2
      exact ih.trans (hs2.trans hs)
  | case5 b domain e b1 hr =>
    have hs := ByteReader.readSingleByte_sourceSlice b
    rw [hr] at hs
    rw [readDomainLoop.eq_def, hr]
    simpa using hs
  | case6 b domain b1 hr =>
    have hs := ByteReader.readSingleByte_sourceSlice b
    rw [hr] at hs
    rw [readDomainLoop.eq_def, hr]
    simpa using hs

/-! ## Well-formed wire input shapes (specification-side descriptions of the
buffers handed to the decoder; the decoder itself is embedded above) -/

/-- The wire encoding of an (uncompressed) label sequence: every label
prefixed by its length, terminated by a zero byte. -/
def encodeLabels (labels : List (List Nat)) : List Nat :=
  (labels.map (fun l => l.length :: l)).flatten ++ [0]

/-- One step of the Go domain `strings.Builder`: a dot if something was
already written, then the label bytes. -/
def appendDomain (acc part : List Nat) : List Nat :=
  (if acc.isEmpty then acc else acc ++ [46]) ++ part

theorem readDomainLoop_encoded (labels : List (List Nat)) :
    ∀ (src rest acc : List Nat) (pos : Nat),
      (∀ l ∈ labels, l ≠ []) →
      src.drop pos = encodeLabels labels ++ rest →
      readDomainLoop ⟨some src, pos⟩ acc =
        (labels.foldl appendDomain acc,
         ⟨some src, pos + (encodeLabels labels).length⟩) := by
  induction labels with
  | nil =>
    intro src rest acc pos _ h
    have h0 : src.drop pos = 0 :: rest := by simpa [encodeLabels] using h
    rw [readDomainLoop.eq_def, ByteReader.readSingleByte_cons src rest pos 0 h0]
    simp [encodeLabels]
  | cons l ls ih =>
    intro src rest acc pos hne h
    have hlne : l ≠ [] := hne l (List.mem_cons_self _ _)
    have hllen : l.length ≠ 0 := fun hz => hlne (List.eq_nil_of_length_eq_zero hz)
    have hshape : src.drop pos = l.length :: (l ++ (encodeLabels ls ++ rest)) := by
      rw [h]
      simp [encodeLabels]
    have hb1 : src.drop (pos + 1) = l ++ (encodeLabels ls ++ rest) := by
      have : src.drop (pos + 1) = (src.drop pos).drop 1 := by
        rw [List.drop_drop]
      rw [this, hshape]
      rfl
    have hb2 : src.drop (pos + 1 + l.length) = encodeLabels ls ++ rest := by
      have : src.drop (pos + 1 + l.length) = (src.drop (pos + 1)).drop l.length := by
        rw [List.drop_drop]
      rw [this, hb1, List.drop_left]
    rw [readDomainLoop.eq_def,
      ByteReader.readSingleByte_cons src _ pos l.length hshape]
    simp only [hllen, reduceIte]
    rw [ByteReader.readBytes_exact src l (encodeLabels ls ++ rest) (pos + 1)
      (l.length : Int) rfl hb1]
    show readDomainLoop ⟨some src, pos + 1 + l.length⟩ (appendDomain acc l) =
      (List.foldl appendDomain acc (l :: ls),
       ⟨some src, pos + (encodeLabels (l :: ls)).length⟩)
    rw [ih src rest (appendDomain acc l) (pos + 1 + l.length)
      (fun x hx => hne x (List.mem_cons_of_mem _ hx)) hb2]
    have harith : pos + 1 + l.length + (encodeLabels ls).length =
        pos + (encodeLabels (l :: ls)).length := by
      simp only [encodeLabels, List.map_cons, List.flatten_cons, List.length_append,
        List.length_cons, List.append_assoc]
      omega
    rw [harith]
    rfl

theorem drop_chunk (src t r : List Nat) (p : Nat) (h : src.drop p = t ++ r) :
    src.drop (p + t.length) = r := by
  have h2 := congrArg (List.drop t.length) h
  rw [List.drop_drop, List.drop_left] at h2
  exact h2

theorem drop_cons_succ (src r : List Nat) (p a : Nat) (h : src.drop p = a :: r) :
    src.drop (p + 1) = r := by
  have := drop_chunk src [a] r p (by simpa using h)
  simpa using this

theorem ByteReader.seekPosition_start_mk (b : ByteReader) (k : Nat) :
    b.SeekPosition (k : Int) .seekStart = (.ok (), ⟨b.sourceSlice, k⟩) := by
  unfold ByteReader.SeekPosition seekTarget
  rw [if_neg (by push_neg; exact Int.natCast_nonneg _)]
  rw [Int.toNat_natCast]

/-- The big-endian wire bytes of a 32-bit value (specification-side shape of
a record's TTL field). -/
def wireUint32 (n : Nat) : List Nat :=
  [n / 16777216 % 256, n / 65536 % 256, n / 256 % 256, n % 256]

/-! ## Concrete inputs used by the claims -/

/-- A header whose opcode is `InverseQuery` (1) and every other field zero. -/
def invalidOpcodeHeader : DnsHeader :=
  { Id := 0, IsResponse := false, Opcode := 1,
    IsAuthoritativeAnswer := false, IsTruncatedMessage := false,
    IsRecursionDesired := false, IsRecursionSupportAvailable := false,
    ResponseCode := 0, QuestionCount := 0, AnswerCount := 0,
    NameServerRecordsCount := 0, AdditionalRecordsCount := 0 }

/-- The 26-byte hex string the spec claims follows the two random id bytes:
`00000000000003646e7306676f6f676c6503636f6d0000010001`. -/
def specClaimedSuffix : List Nat :=
  [0, 0, 0, 0, 0, 0,
   3, 100, 110, 115, 6, 103, 111, 111, 103, 108, 101, 3, 99, 111, 109, 0,
   0, 1, 0, 1]

/-- A fully well-formed A record with a root owner name: name `00`,
TYPE=1 (A), CLASS=1 (IN), TTL=0, RDLENGTH=4, RDATA `08 08 08 08`. -/
def rootARecord : List Nat :=
  [0, 0, 1, 0, 1, 0, 0, 0, 0, 0, 4, 8, 8, 8, 8]

/-- A well-formed A record whose owner name is the compression pointer
`C0 00`: TYPE=1, CLASS=1, TTL=0, RDLENGTH=4, RDATA `08 08 08 08`. -/
def pointerRecordExample : List Nat :=
  [192, 0, 0, 1, 0, 1, 0, 0, 0, 0, 0, 4, 8, 8, 8, 8]

/-- A message holding `03 77 77 77 00` (`www`) at offset 12 and a record name
field `C0 0C` (pointer to offset 12) at offset 17. -/
def wwwPointerBuffer : List Nat :=
  [0, 0, 0, 0, 0, 0, 0, 0, 0, 0, 0, 0, 3, 119, 119, 119, 0, 192, 12]

/-- An 11-byte truncated response: ID=1, flags=0, QDCOUNT=0, ANCOUNT=0,
NSCOUNT=0, then a single stray byte 7 where ARCOUNT's two bytes should be. -/
def truncatedResponse : List Nat :=
  [0, 1, 0, 0, 0, 0, 0, 0, 0, 0, 7]

/-- What `parseResponse` builds from `truncatedResponse`: the failed ARCOUNT
read yields 0 and no error reaches the caller. -/
def truncatedDnsResponse : DnsResponse :=
  { Header :=
      { Id := 1, IsResponse := false, Opcode := 0,
        IsAuthoritativeAnswer := false, IsTruncatedMessage := false,
        IsRecursionDesired := false, IsRecursionSupportAvailable := false,
        ResponseCode := 0, QuestionCount := 0, AnswerCount := 0,
        NameServerRecordsCount := 0, AdditionalRecordsCount := 0 },
    Question := none, Answers := [] }

/-- Reading the question domain of `truncatedResponse` from position 10: the
length byte 7 is consumed, the 7-byte read fails (nothing remains), the next
length read fails and the loop breaks with an empty name at position 11. -/
theorem readDomain_truncatedResponse :
    readDomainFromResponse ⟨some [0, 1, 0, 0, 0, 0, 0, 0, 0, 0, 7], 10⟩ =
      ([], ⟨some [0, 1, 0, 0, 0, 0, 0, 0, 0, 0, 7], 11⟩) := by
  simp [readDomainFromResponse, readDomainLoop, ByteReader.ReadSingleByte,
    ByteReader.ReadBytes, ByteReader.readerLen, ByteReader.dataBytes]

set_option maxHeartbeats 1000000 in
/-- Full evaluation of `parseResponse` on `truncatedResponse`: the decode
continues after the failed ARCOUNT read at position 10 (the question-domain
read consumes the stray byte, ending at position 11) and returns a complete
zero-filled result with no error. -/
theorem parseResponse_truncatedResponse_eval :
    parseResponse truncatedResponse = some (truncatedDnsResponse, ⟨some truncatedResponse, 11⟩) := by
  simp [parseResponse, truncatedResponse, truncatedDnsResponse, NewByteReader, resultOr,
    ByteReader.ReadUint16, ByteReader.ReadBytes, ByteReader.readerLen, ByteReader.dataBytes,
    bigEndianUint16, populateDnsHeaderWithMetadata, parseAnswersLoop,
    readDomain_truncatedResponse]

/-! ## The claims -/

/-- Claim C1 (code_bug evidence): the header codec does NOT round-trip for
every opcode.  The encoder places the opcode at bit 14
(`uint16(h.Opcode) << 14`) while the decoder reads bits 11..14
(`headerMeta >> 11 & 15`), so a header with opcode `InverseQuery` (1) and
every flag clear decodes with opcode 8. -/
theorem C1_header_opcode_encode_decode_mismatch :
    decodeHeader (DnsHeader.GetBytes invalidOpcodeHeader) ≠ invalidOpcodeHeader ∧
    (decodeHeader (DnsHeader.GetBytes invalidOpcodeHeader)).Opcode = 8 ∧
    invalidOpcodeHeader.Opcode = 1 := by
  decide

/-- Claim C2 (code_bug evidence): the compression-pointer offset computed by
`parseAnswersFromResponse` is `(p1 & 0x3F) + p2` with no 8-bit shift: for the
pointer bytes `C1 00` the code seeks to offset 1, while the claimed (and
RFC 1035) offset `((p1 & 0x3F) << 8) | p2` is 256. -/
theorem C2_pointer_offset_missing_shift :
    answerPointerOffset 193 0 = 1 ∧
    ((193 &&& 63) <<< 8 ||| 0) = 256 ∧
    193 &&& 192 = 192 := by
  decide

/-- Claim C3 (counterexample): a fully well-formed A record whose owner name
is the root name (`00 0001 0001 00000000 0004 08080808`) makes the record
decoder panic (`none`): the name's first byte is consumed before
`readDomainFromResponse` runs, so every later field is read one byte early
and the shifted RDLENGTH 0x0408 makes the RDATA read fail, handing an empty
slice to the unconditional IPv4 interpretation. -/
theorem C3_wellformed_record_decode_fails :
    parseAnswersFromResponse ⟨some rootARecord, 0⟩ = none := by
  have hdom : readDomainFromResponse ⟨some [0, 0, 1, 0, 1, 0, 0, 0, 0, 0, 4, 8, 8, 8, 8], 1⟩ =
      ([], ⟨some [0, 0, 1, 0, 1, 0, 0, 0, 0, 0, 4, 8, 8, 8, 8], 2⟩) := by
    simp [readDomainFromResponse, readDomainLoop, ByteReader.ReadSingleByte,
      ByteReader.ReadBytes, ByteReader.readerLen, ByteReader.dataBytes]
  simp [parseAnswersFromResponse, readAnswerName, rootARecord, resultOr,
    ByteReader.ReadSingleByte, ByteReader.ReadUint16, ByteReader.ReadUint32,
    ByteReader.ReadBytes, ByteReader.readerLen, ByteReader.dataBytes,
    bigEndianUint16, bigEndianUint32, hdom, readIpAddressFromResponse]

/-- Claim C3 (as amended): for a record whose name field is a compression
pointer (first byte with both top bits set) and whose RDLENGTH is at least 4,
with the fixed fields and RDATA present in the buffer, the record decoder
returns normally and leaves the cursor exactly at the first byte past the
RDATA (`start + 12 + RDLENGTH`); the decoded name is whatever the domain
reader yields at the (code-computed) pointer target. -/
theorem C3_pointer_name_record_decode (src rdata rest : List Nat)
    (start o o2 t c ttl : Nat)
    (ho : o &&& 192 = 192) (ht : t < 65536) (hc : c < 65536)
    (httl : ttl < 4294967296) (hr4 : 4 ≤ rdata.length) (hrlen : rdata.length < 65536)
    (hbuf : src.drop start = o :: o2 ::
      (ConvertUint16ToBytesArray t ++ ConvertUint16ToBytesArray c ++
       wireUint32 ttl ++ ConvertUint16ToBytesArray rdata.length ++ rdata ++ rest)) :
    parseAnswersFromResponse ⟨some src, start⟩ =
      some ({ Domain := (readDomainFromResponse ⟨some src, answerPointerOffset o o2⟩).1,
              Address := ipDottedQuad rdata, RecordType := t, RecordClass := c,
              TTL := ttl },
            ⟨some src, start + 12 + rdata.length⟩) := by
  have hlen : start + 2 ≤ src.length := by
    have h1 : (src.drop start).length = src.length - start := List.length_drop _ _
    rw [hbuf] at h1
    simp at h1
    omega
  have hA : src.drop (start + 1) = o2 ::
      (ConvertUint16ToBytesArray t ++ ConvertUint16ToBytesArray c ++
       wireUint32 ttl ++ ConvertUint16ToBytesArray rdata.length ++ rdata ++ rest) :=
    drop_cons_succ _ _ _ _ hbuf
  have hB : src.drop (start + 2) = t / 256 % 256 :: t % 256 ::
      (ConvertUint16ToBytesArray c ++ wireUint32 ttl ++
       ConvertUint16ToBytesArray rdata.length ++ rdata ++ rest) := by
    have h0 := drop_cons_succ _ _ _ _ hA
    rw [show start + 1 + 1 = start + 2 from by omega] at h0
    rw [h0]
    simp [ConvertUint16ToBytesArray, List.append_assoc]
  have hC : src.drop (start + 4) = c / 256 % 256 :: c % 256 ::
      (wireUint32 ttl ++ ConvertUint16ToBytesArray rdata.length ++ rdata ++ rest) := by
    have h0 := drop_cons_succ _ _ _ _ (drop_cons_succ _ _ _ _ hB)
    rw [show start + 2 + 1 + 1 = start + 4 from by omega] at h0
    rw [h0]
    simp [ConvertUint16ToBytesArray, List.append_assoc]
  have hD : src.drop (start + 6) = ttl / 16777216 % 256 :: ttl / 65536 % 256 ::
      ttl / 256 % 256 :: ttl % 256 ::
      (ConvertUint16ToBytesArray rdata.length ++ rdata ++ rest) := by
    have h0 := drop_cons_succ _ _ _ _ (drop_cons_succ _ _ _ _ hC)
    rw [show start + 4 + 1 + 1 = start + 6 from by omega] at h0
    rw [h0]
    simp [wireUint32, List.append_assoc]
  have hE : src.drop (start + 10) = rdata.length / 256 % 256 :: rdata.length % 256 ::
      (rdata ++ rest) := by
    have h0 := drop_cons_succ _ _ _ _ (drop_cons_succ _ _ _ _
      (drop_cons_succ _ _ _ _ (drop_cons_succ _ _ _ _ hD)))
    rw [show start + 6 + 1 + 1 + 1 + 1 = start + 10 from by omega] at h0
    rw [h0]
    simp [ConvertUint16ToBytesArray, List.append_assoc]
  have hF : src.drop (start + 12) = rdata ++ rest := by
    have h0 := drop_cons_succ _ _ _ _ (drop_cons_succ _ _ _ _ hE)
    rw [show start + 10 + 1 + 1 = start + 12 from by omega] at h0
    exact h0
  have ho1 := ByteReader.readSingleByte_cons src _ start o hbuf
  have ho2 := ByteReader.readSingleByte_cons src _ (start + 1) o2 hA
  have hcur := ByteReader.getCurrentPosition_of_le src (start + 2) hlen
  have hseek1 : (⟨some src, start + 2⟩ : ByteReader).SeekPosition
      ((answerPointerOffset o o2 : Nat) : Int) Whence.seekStart =
      (.ok (), ⟨some src, answerPointerOffset o o2⟩) :=
    ByteReader.seekPosition_start_mk _ _
  rcases hdom : readDomainFromResponse ⟨some src, answerPointerOffset o o2⟩ with ⟨dval, bD⟩
  have hbD : bD.sourceSlice = some src := by
    have h0 := readDomainLoop_sourceSlice ⟨some src, answerPointerOffset o o2⟩ []
    unfold readDomainFromResponse at hdom
    rw [hdom] at h0
    exact h0
  have hseek2 : bD.SeekPosition ((start + 2 : Nat) : Int) Whence.seekStart =
      (.ok (), ⟨some src, start + 2⟩) := by
    have h0 := ByteReader.seekPosition_start_mk bD (start + 2)
    rw [hbD] at h0
    exact h0
  have hu16t : ByteReader.ReadUint16 ⟨some src, start + 2⟩ =
      (.ok t, ⟨some src, start + 4⟩) := by
    have h0 := ByteReader.readUint16_cons src _ (start + 2) (t / 256 % 256) (t % 256) hB
    rw [show t / 256 % 256 * 256 + t % 256 = t from by omega,
      show start + 2 + 2 = start + 4 from by omega] at h0
    exact h0
  have hu16c : ByteReader.ReadUint16 ⟨some src, start + 4⟩ =
      (.ok c, ⟨some src, start + 6⟩) := by
    have h0 := ByteReader.readUint16_cons src _ (start + 4) (c / 256 % 256) (c % 256) hC
    rw [show c / 256 % 256 * 256 + c % 256 = c from by omega,
      show start + 4 + 2 = start + 6 from by omega] at h0
    exact h0
  have hu32 : ByteReader.ReadUint32 ⟨some src, start + 6⟩ =
      (.ok ttl, ⟨some src, start + 10⟩) := by
    have h0 := ByteReader.readUint32_cons src _ (start + 6) (ttl / 16777216 % 256)
      (ttl / 65536 % 256) (ttl / 256 % 256) (ttl % 256) hD
    rw [show ttl / 16777216 % 256 * 16777216 + ttl / 65536 % 256 * 65536 +
        ttl / 256 % 256 * 256 + ttl % 256 = ttl from by omega,
      show start + 6 + 4 = start + 10 from by omega] at h0
    exact h0
  have hu16l : ByteReader.ReadUint16 ⟨some src, start + 10⟩ =
      (.ok rdata.length, ⟨some src, start + 12⟩) := by
    have h0 := ByteReader.readUint16_cons src _ (start + 10) (rdata.length / 256 % 256)
      (rdata.length % 256) hE
    rw [show rdata.length / 256 % 256 * 256 + rdata.length % 256 = rdata.length from by omega,
      show start + 10 + 2 = start + 12 from by omega] at h0
    exact h0
  have hrd : ByteReader.ReadBytes ⟨some src, start + 12⟩ ((rdata.length : Nat) : Int) =
      (.ok rdata, ⟨some src, start + 12 + rdata.length⟩) :=
    ByteReader.readBytes_exact src rdata rest (start + 12) _ rfl hF
  have hip : readIpAddressFromResponse rdata = some (ipDottedQuad rdata) := by
    unfold readIpAddressFromResponse
    rw [if_pos hr4]
  have hdom2 : readDomainFromResponse ⟨some src, answerPointerOffset o o2⟩ = (dval, bD) := hdom
  unfold parseAnswersFromResponse readAnswerName
  rw [ho1]
  simp only [resultOr, ho, reduceIte, ho2,
    show start + 1 + 1 = start + 2 from by omega, hcur, hseek1, hdom2, hseek2,
    hu16t, hu16c, hu32, hu16l, hrd, hip]

/-- Claim C3 witness: the amended record-decode theorem applied to the
concrete pointer-name A record `pointerRecordExample` at position 0. -/
theorem C3_pointer_name_record_decode_witness :
    parseAnswersFromResponse ⟨some pointerRecordExample, 0⟩ =
      some ({ Domain := (readDomainFromResponse ⟨some pointerRecordExample, 0⟩).1,
              Address := ipDottedQuad [8, 8, 8, 8], RecordType := 1, RecordClass := 1,
              TTL := 0 },
            ⟨some pointerRecordExample, 16⟩) :=
  C3_pointer_name_record_decode pointerRecordExample [8, 8, 8, 8] [] 0 192 0 1 1 0
    (by decide) (by decide) (by decide) (by decide) (by decide) (by decide) (by decide)

/-- Claim C4 (counterexample): the full-message decoder does not stop at the
first field error.  On `truncatedResponse` the ARCOUNT read at position 10
fails with `insufficientData`, yet the decoder goes on: the question-domain
read consumes the stray byte at position 10, leaving the final cursor at 11,
and the returned result carries no error. -/
theorem C4_reads_continue_after_first_error :
    (ByteReader.ReadUint16 ⟨some truncatedResponse, 10⟩).1 =
      BrResult.err BrError.insufficientData ∧
    (parseResponse truncatedResponse).map (fun pr => pr.2.pos) = some 11 := by
  constructor
  · decide
  · rw [parseResponse_truncatedResponse_eval]
    rfl

/-- Claim C4 (as amended): `parseResponse` discards every field error — a
failed read yields the Go zero value and decoding continues; the caller gets
a completed, zero-filled `DnsResponse` and no error.  Demonstrated by the
full evaluation on the truncated 11-byte buffer whose ARCOUNT read fails. -/
theorem C4_decoder_ignores_field_errors :
    parseResponse truncatedResponse =
      some (truncatedDnsResponse, ⟨some truncatedResponse, 11⟩) :=
  parseResponse_truncatedResponse_eval

/-- Claim C5 (counterexample): the serialized query bytes after the first two
(random id) bytes are NOT equal to the hex string the spec claims — the spec
string misses the `00 01` QDCOUNT word (the true remainder is 30 bytes, the
claimed one 26). -/
theorem C5_spec_suffix_differs :
    (DnsQuery.GetBytes (generateDnsQuery 0 "dns.google.com")).drop 2 ≠
      specClaimedSuffix := by
  decide

/-- Claim C5 (as amended): for every random draw, the query for
`dns.google.com` serializes to the random id followed by `00 00 00 01`
(flags word zero, QDCOUNT=1) followed by the spec's 26-byte string
(ANCOUNT/NSCOUNT/ARCOUNT zero, the qname-encoded question, QTYPE=1,
QCLASS=1); the claimed hex is a genuine suffix of the message but starts
after the first six bytes, not after the first two. -/
theorem C5_query_bytes_after_id :
    ∀ (draw : Nat),
      (DnsQuery.GetBytes (generateDnsQuery draw "dns.google.com")).drop 2 =
        [0, 0, 0, 1] ++ specClaimedSuffix := by
  intro draw
  have hmeta : DnsHeader.getHeaderMetadata
      { Id := GetRandomUint16 draw, IsResponse := false, Opcode := OpCode.StandardQuery,
        IsAuthoritativeAnswer := false, IsTruncatedMessage := false,
        IsRecursionDesired := false, IsRecursionSupportAvailable := false,
        ResponseCode := 0, QuestionCount := 1, AnswerCount := 0,
        NameServerRecordsCount := 0, AdditionalRecordsCount := 0 } = [0, 0] := by
    simp [DnsHeader.getHeaderMetadata, ConvertUint16ToBytesArray, OpCode.StandardQuery]
  unfold DnsQuery.GetBytes generateDnsQuery DnsHeader.GetBytes
  simp only [hmeta, ConvertUint16ToBytesArray, List.cons_append, List.nil_append,
    List.drop_succ_cons, List.drop_zero]
  decide

/-- Claim C6 (confirmed): for every initialized reader and every request
larger than the number of remaining bytes, `ReadBytes` fails with the
insufficient-data error and returns the reader unchanged (in particular the
cursor position is untouched). -/
theorem C6_readBytes_insufficient_data (b : ByteReader) (n : Int)
    (h1 : b.sourceSlice ≠ none) (h2 : (b.readerLen : Int) < n) :
    b.ReadBytes n = (.err .insufficientData, b) := by
  unfold ByteReader.ReadBytes
  rw [if_neg h1, if_pos h2]

/-- Claim C6 witness: a 2-byte reader asked for 3 bytes. -/
theorem C6_readBytes_insufficient_data_witness :
    ByteReader.ReadBytes ⟨some [1, 2], 0⟩ 3 =
      (.err .insufficientData, ⟨some [1, 2], 0⟩) :=
  C6_readBytes_insufficient_data ⟨some [1, 2], 0⟩ 3 (by decide) (by decide)

/-- Claim C7 (confirmed): in every message whose bytes at offset 12 are
`03 77 77 77 00` and where a record's name field is the two pointer bytes
`C0 0C`, decoding that name yields the bytes of `"www"` and leaves the
cursor immediately after the two pointer bytes (the saved position), not at
the position reached by following the pointer. -/
theorem C7_compressed_name_decode (src tail : List Nat) (p : Nat)
    (h12 : (src.drop 12).take 5 = [3, 119, 119, 119, 0])
    (hp : src.drop p = 192 :: 12 :: tail) :
    readAnswerName ⟨some src, p⟩ = (stringBytes "www", ⟨some src, p + 2⟩) := by
  have hlen12 : 17 ≤ src.length := by
    have h1 : (src.drop 12).length = src.length - 12 := List.length_drop _ _
    have h2 : 5 ≤ (src.drop 12).length := by
      by_contra hc
      push_neg at hc
      have h3 := List.take_of_length_le (le_of_lt hc) (l := src.drop 12)
      rw [h3] at h12
      have h4 := congrArg List.length h12
      simp at h4
      omega
    omega
  have hlenp : p + 2 ≤ src.length := by
    have h1 : (src.drop p).length = src.length - p := List.length_drop _ _
    rw [hp] at h1
    simp at h1
    omega
  have hd12 : src.drop 12 = encodeLabels [[119, 119, 119]] ++ src.drop 17 := by
    have h1 : src.drop 12 = (src.drop 12).take 5 ++ (src.drop 12).drop 5 := by
      rw [List.take_append_drop]
    rw [List.drop_drop] at h1
    rw [h1, h12]
    rfl
  have ho1 := ByteReader.readSingleByte_cons src (12 :: tail) p 192 hp
  have hptail := drop_cons_succ src (12 :: tail) p 192 hp
  have ho2 := ByteReader.readSingleByte_cons src tail (p + 1) 12 hptail
  have hcur := ByteReader.getCurrentPosition_of_le src (p + 2) hlenp
  have hseek1 : (⟨some src, p + 2⟩ : ByteReader).SeekPosition ((12 : Nat) : Int)
      Whence.seekStart = (.ok (), ⟨some src, 12⟩) :=
    ByteReader.seekPosition_start_mk _ 12
  have hdom := readDomainLoop_encoded [[119, 119, 119]] src (src.drop 17) [] 12
    (by intro l hl; simp at hl; subst hl; simp) hd12
  have hseek2 : (⟨some src, 17⟩ : ByteReader).SeekPosition ((p + 2 : Nat) : Int)
      Whence.seekStart = (.ok (), ⟨some src, p + 2⟩) :=
    ByteReader.seekPosition_start_mk _ (p + 2)
  have hdom2 : readDomainFromResponse ⟨some src, 12⟩ = ([119, 119, 119], ⟨some src, 17⟩) := by
    unfold readDomainFromResponse
    rw [hdom]
    rfl
  unfold readAnswerName
  rw [ho1]
  simp only [resultOr, show ((192 : Nat) &&& 192) = 192 from by decide, reduceIte,
    ho2, show answerPointerOffset 192 12 = 12 from by decide,
    show p + 1 + 1 = p + 2 from by omega, hcur, hseek1, hdom2, hseek2]
  rw [show (stringBytes "www" : List Nat) = [119, 119, 119] from by decide]

/-- Claim C7 witness: the compressed-name theorem applied to
`wwwPointerBuffer`, whose pointer `C0 0C` sits at offset 17. -/
theorem C7_compressed_name_decode_witness :
    readAnswerName ⟨some wwwPointerBuffer, 17⟩ =
      (stringBytes "www", ⟨some wwwPointerBuffer, 19⟩) :=
  C7_compressed_name_decode wwwPointerBuffer [] 17 (by decide) (by decide)

/-- Claim C8 (counterexample): a seek far beyond the end of a 3-byte buffer
succeeds — the embedded `SeekPosition` (like Go's `bytes.Reader.Seek`)
checks no upper bound, contradicting the claim that such a seek fails with
an invalid-offset error. -/
theorem C8_seek_beyond_bounds_succeeds :
    (⟨some [0, 0, 0], 0⟩ : ByteReader).SeekPosition 10 .seekStart =
      (.ok (), ⟨some [0, 0, 0], 10⟩) ∧
    (⟨some [0, 0, 0], 10⟩ : ByteReader).dataBytes.length <
      (⟨some [0, 0, 0], 10⟩ : ByteReader).pos := by
  decide

/-- Claim C8 (as amended): for every reader, offset and whence, the seek
fails (with the negative-position error) exactly when the computed target
index is negative; any non-negative target — including one beyond the buffer
end — is accepted and stored as the new position. -/
theorem C8_seek_fails_iff_negative_target :
    ∀ (b : ByteReader) (offset : Int) (whence : Whence),
      ((b.SeekPosition offset whence).1 = .err .negativePosition ↔
        seekTarget b offset whence < 0) ∧
      (0 ≤ seekTarget b offset whence →
        b.SeekPosition offset whence =
          (.ok (), { b with pos := (seekTarget b offset whence).toNat })) := by
  intro b offset whence
  unfold ByteReader.SeekPosition
  by_cases hneg : seekTarget b offset whence < 0
  · rw [if_pos hneg]
    constructor
    · simp [hneg]
    · intro hge
      omega
  · rw [if_neg hneg]
    constructor
    · simp [hneg]
    · intro _
      rfl

/-- Claim C9 (counterexample): 65535 is never a possible output of the
transaction-id generator — `crypto/rand.Int` is drawn with the exclusive
bound `big.NewInt(65535)`. -/
theorem C9_65535_never_returned :
    ¬ ∃ draw, GetRandomUint16 draw = 65535 := by
  rintro ⟨d, hd⟩
  unfold GetRandomUint16 at hd
  have h1 : d % 65535 < 65535 := Nat.mod_lt _ (by norm_num)
  rw [Nat.mod_eq_of_lt (lt_trans h1 (by norm_num))] at hd
  omega

/-- Claim C9 (as amended): the transaction-id generator's possible outputs
are exactly 0..65534 — every value strictly below 65535 is reachable (and by
`C9_65535_never_returned` the inclusive upper endpoint 65535 is not). -/
theorem C9_random_id_range (n : Nat) (h : n < 65535) :
    ∃ draw, GetRandomUint16 draw = n := by
  refine ⟨n, ?_⟩
  unfold GetRandomUint16
  rw [Nat.mod_eq_of_lt h, Nat.mod_eq_of_lt (lt_trans h (by norm_num))]

/-- Claim C9 witness: the largest reachable id, 65534. -/
theorem C9_random_id_range_witness : ∃ draw, GetRandomUint16 draw = 65534 :=
  C9_random_id_range 65534 (by decide)

/-- Claim C10 (confirmed): for every initialized reader, a negative read
count slips past the available-bytes check (`n > Len()` is false for a
negative `n`) and `make([]byte, n)` panics; no `insufficientData` or other
error value is returned. -/
theorem C10_readBytes_negative_panics (b : ByteReader) (n : Int)
    (h1 : b.sourceSlice ≠ none) (h2 : n < 0) :
    b.ReadBytes n = (.panicked, b) := by
  unfold ByteReader.ReadBytes
  have hle : ¬ ((b.readerLen : Int) < n) := by
    push_neg
    exact le_trans (le_of_lt h2) (Int.natCast_nonneg _)
  rw [if_neg h1, if_neg hle, if_pos h2]

/-- Claim C10 witness: `ReadBytes (-1)` on a 1-byte reader panics. -/
theorem C10_readBytes_negative_panics_witness :
    ByteReader.ReadBytes ⟨some [5], 0⟩ (-1) = (.panicked, ⟨some [5], 0⟩) :=
  C10_readBytes_negative_panics ⟨some [5], 0⟩ (-1) (by decide) (by decide)
